import Mathlib

/-!
# Verification of the tournament-bot queue / match state machine

Shallow embedding of the per-queue match-formation logic of `comm.py` and of
the persistence layer `db.py` (players / matches tables).  Participants are
identified by their stable Discord id, modelled as `Nat`; map names are
`String`s.  Randomness (`random.choice`, `random.sample`) is modelled by
explicit index parameters: a call site that draws uniformly from a list of
length `n` receives a `Nat` argument `k` and reads position `k % n`, so every
element is reachable for some `k` and none other is.
-/

namespace TournamentBot

/-! ## Persistent store (db.py)

The `players` table row: `points`, `matches_played`, `wins` (INT DEFAULT 0)
and `username` (nullable).  A table is an association list keyed by
`discord_id`, kept in insertion order (MySQL insertion order is what the
code's `INSERT`s produce; only keyed lookups matter for the claims). -/

structure PlayerRow where
  points : Int
  matches_played : Int
  wins : Int
  username : Option String
deriving Repr, DecidableEq

/-- The row produced by the column defaults (`DEFAULT 0`, username NULL). -/
def zeroRow : PlayerRow := ⟨0, 0, 0, none⟩

abbrev PlayersTable := List (Nat × PlayerRow)

/-- Keyed lookup in the players table (`SELECT ... WHERE discord_id = %s`). -/
def findPlayer : PlayersTable → Nat → Option PlayerRow
  | [], _ => none
  | (k, r) :: t, i => if k = i then some r else findPlayer t i

/-- `db.get_player_stats`: the stats dictionary returned for a player — the
stored row, or an all-zero default when the player was never persisted.  (The
code also lazily runs `create_player(discord_id)` in the missing case, which
inserts exactly `zeroRow`; that write is modelled separately by
`create_player0` where the call site performs it.) -/
def get_player_stats (tbl : PlayersTable) (i : Nat) : PlayerRow :=
  (findPlayer tbl i).getD zeroRow

/-- `db.create_player(discord_id, 0)` (`INSERT IGNORE`): appends an all-zero
row when the player is absent, otherwise leaves the table unchanged.  This is
the lazy insert performed by `db.get_player_points` on a missing player. -/
def create_player0 (tbl : PlayersTable) (i : Nat) : PlayersTable :=
  match findPlayer tbl i with
  | some _ => tbl
  | none => tbl ++ [(i, zeroRow)]

/-- `db.update_player_points(discord_id, points_to_add, win, username)`:
`INSERT ... ON DUPLICATE KEY UPDATE points = points + %s,
matches_played = matches_played + 1, wins = wins + %s [, username = %s]`.
A present row is updated in place; an absent player gets a fresh row
`(points_to_add, 1, win as 0/1, username)`. -/
def update_player_points (tbl : PlayersTable) (i : Nat) (pta : Int)
    (win : Bool) (username : Option String) : PlayersTable :=
  match tbl with
  | [] => [(i, ⟨pta, 1, if win then 1 else 0, username⟩)]
  | (k, r) :: t =>
    if k = i then
      (k, ⟨r.points + pta, r.matches_played + 1,
           r.wins + (if win then 1 else 0),
           match username with
           | some u => some u
           | none => r.username⟩) :: t
    else (k, r) :: update_player_points t i pta win username

/-- The `matches` table row (db.py): queue number, the two captain ids,
the winning team (NULL until reported) and the map. -/
structure MatchRow where
  queue_number : Nat
  team1_captain : Nat
  team2_captain : Nat
  winner_team : Option Nat
  map_played : String
deriving Repr, DecidableEq

abbrev MatchesTable := List (Nat × MatchRow)

/-- `db.create_match`: inserts a new match row (AUTO_INCREMENT id supplied by
the caller as `nextId`); `winner_team` starts NULL. -/
def create_match (tbl : MatchesTable) (nextId qn c1 c2 : Nat)
    (m : String) : MatchesTable :=
  tbl ++ [(nextId, ⟨qn, c1, c2, none, m⟩)]

/-- `db.update_match_winner`: `UPDATE matches SET winner_team = %s WHERE id = %s`. -/
def update_match_winner (tbl : MatchesTable) (mid team : Nat) : MatchesTable :=
  tbl.map (fun p => if p.1 = mid then (p.1, { p.2 with winner_team := some team }) else p)

/-! ## Queue state (comm.py `class Queue`)

Python defines attributes dynamically: `__init__` does NOT define `match_id`
or `match_reported` — they first appear in `reset()` (or when later code
assigns them).  Reading an undefined attribute raises `AttributeError`.  We
model those two fields as an outer `Option` whose `none` means "attribute not
defined on the object"; the inner value is the Python value (`match_id` may
itself hold Python `None`, hence `Option (Option Nat)`). -/

structure Queue where
  queue_number : Nat
  players : List Nat
  captains : List Nat
  team1 : List Nat
  team2 : List Nat
  captain_votes : List (Nat × Nat)
  map_votes : List (String × Nat)
  voted_players : List Nat
  is_active : Bool
  current_pick_index : Nat
  chosen_map : Option String
  match_id : Option (Option Nat)
  match_reported : Option Bool
deriving Repr, DecidableEq

/-- `Queue.__init__`: empty roster/teams/votes; `chosen_map = None`; the
`match_id` and `match_reported` attributes are left undefined. -/
def Queue.init (n : Nat) : Queue :=
  ⟨n, [], [], [], [], [], [], [], false, 0, none, none, none⟩

/-- `Queue.reset`: clears all game state and (first) defines
`match_id = None`, `match_reported = False`. -/
def Queue.reset (q : Queue) : Queue :=
  { q with players := [], captains := [], team1 := [], team2 := [],
           captain_votes := [], map_votes := [], voted_players := [],
           is_active := false, current_pick_index := 0, chosen_map := none,
           match_id := some none, match_reported := some false }

/-- `Queue.is_full`: `len(self.players) >= 10`. -/
def Queue.isFull (q : Queue) : Bool := decide (q.players.length ≥ 10)

/-! ## The `/join` command (comm.py `join`, lines 362-398)

Only the roster logic is modelled; the channel / voice-state guards at the
top of the command are environment checks that abort before any state is
touched.  After responding (in every branch), the command unconditionally
runs `if queue.is_full(): ... await start_captain_voting(...)` — that flag is
the third component of the outcome. -/

inductive JoinMsg
  | alreadyInQueue
  | queueFull
  | joined
deriving Repr, DecidableEq

structure JoinOutcome where
  queue : Queue
  msg : JoinMsg
  startsCaptainVote : Bool
deriving Repr, DecidableEq

def joinStep (q : Queue) (p : Nat) : JoinOutcome :=
  let qm : Queue × JoinMsg :=
    if p ∈ q.players then (q, JoinMsg.alreadyInQueue)
    else if q.players.length ≥ 10 then (q, JoinMsg.queueFull)
    else ({ q with players := q.players ++ [p] }, JoinMsg.joined)
  ⟨qm.1, qm.2, qm.1.isFull⟩

/-- Roster removal on leaving the queue voice channel
(`on_voice_state_update`): `queue.players.remove(member)` when present. -/
def leaveStep (q : Queue) (p : Nat) : Queue :=
  { q with players := q.players.erase p }

/-- A roster event: a `/join` attempt or a voice-channel leave. -/
inductive QOp
  | join (p : Nat)
  | leave (p : Nat)
deriving Repr, DecidableEq

def applyOp (q : Queue) : QOp → Queue
  | QOp.join p => (joinStep q p).queue
  | QOp.leave p => leaveStep q p

def applyOps (q : Queue) (ops : List QOp) : Queue := ops.foldl applyOp q

/-! ## Vote counters (`collections.Counter`)

A `Counter` is modelled as an association list in key-insertion order;
`counter[x] += 1` bumps an existing key in place or appends `(x, 1)`.
`Counter.most_common` sorts by count descending; both `sorted(...)` and
`heapq.nlargest` are stable, so ties keep insertion order.  `insertDesc`
inserts an entry before the first strictly-smaller count (after all entries
with a count ≥ its own), and `mostCommonList` folds it over the counter —
a stable descending insertion sort. -/

def counter_add {α : Type} [DecidableEq α] : List (α × Nat) → α → List (α × Nat)
  | [], x => [(x, 1)]
  | (k, c) :: t, x => if k = x then (k, c + 1) :: t else (k, c) :: counter_add t x

def insertDesc {α : Type} (p : α × Nat) : List (α × Nat) → List (α × Nat)
  | [] => [p]
  | q :: t => if q.2 < p.2 then p :: q :: t else q :: insertDesc p t

def mostCommonList {α : Type} (l : List (α × Nat)) : List (α × Nat) :=
  l.foldl (fun acc p => insertDesc p acc) []

/-! ## Captain-vote resolution (comm.py `finalize_captains`, lines 464-495) -/

/-- `random.sample(l, 2)`: draws an index `k1 % n`, removes it, then draws
`k2 % (n-1)` from the rest — two distinct positions. -/
def random_sample_two (l : List Nat) (k1 k2 : Nat) : List Nat :=
  let i := k1 % l.length
  let a := l.getD i 0
  let rest := l.eraseIdx i
  [a, rest.getD (k2 % rest.length) 0]

/-- The two captains chosen by `finalize_captains`: with fewer than 2 distinct
voted candidates, `random.sample(queue.players, 2)` (randomness arguments
`k1 k2`); otherwise the deterministic `vote_counts.most_common(2)` —
the randomness arguments are unused on that branch. -/
def finalize_captains_chosen (players : List Nat) (votes : List (Nat × Nat))
    (k1 k2 : Nat) : List Nat :=
  if votes.length < 2 then random_sample_two players k1 k2
  else ((mostCommonList votes).take 2).map Prod.fst

/-! ## Map-vote resolution (comm.py `finalize_map_vote`, lines 895-1005) -/

def map_pool : List String :=
  ["Plaza", "Castello", "Village", "Canals", "Legacy", "Raid", "Grounded", "Bureau"]

/-- `highest = top_votes[0][1]`: the count of the first (maximal) entry of
`most_common()`. -/
def map_vote_highest (votes : List (String × Nat)) : Nat :=
  ((mostCommonList votes).headD ("", 0)).2

/-- `top_maps = [m for m, v in top_votes if v == highest]`. -/
def map_vote_top_maps (votes : List (String × Nat)) : List String :=
  ((mostCommonList votes).filter (fun p => p.2 = map_vote_highest votes)).map Prod.fst

/-- The map selected by `finalize_map_vote`: with zero ballots,
`random.choice(map_pool)`; otherwise `random.choice(top_maps)` — `k` is the
randomness argument. -/
def finalize_map_vote_choice (votes : List (String × Nat)) (k : Nat) : String :=
  if votes.isEmpty then map_pool.getD (k % map_pool.length) ""
  else (map_vote_top_maps votes).getD (k % (map_vote_top_maps votes).length) ""

/-- The queue and matches-table effect of `finalize_map_vote`: the local
`chosen_map` is computed in both branches, but `queue.chosen_map` is assigned
only on the has-votes branch (line 923) — the zero-vote branch never stores
it.  Then `db.create_match` persists the match with the local `chosen_map`
and, when it returns an id (`dbOk`), `queue.match_id` is set.  (The
`register_players_in_match` membership rows and the voice-channel moves do
not touch any modelled field and are omitted.) -/
def finalize_map_vote_step (q : Queue) (k : Nat) (ms : MatchesTable)
    (nextId : Nat) (dbOk : Bool) : Queue × MatchesTable :=
  let chosen := finalize_map_vote_choice q.map_votes k
  let q1 := if q.map_votes.isEmpty then q else { q with chosen_map := some chosen }
  if dbOk then
    ({ q1 with match_id := some (some nextId) },
     create_match ms nextId q.queue_number
       (q.captains.getD 0 0) (q.captains.getD 1 0) chosen)
  else (q1, ms)

/-! ## The draft (comm.py `pick_players`, lines 639-768)

`pick_players` builds `remaining = [p for p in queue.players if p not in
queue.captains]`, the fixed 7-element `turn_order`, and seeds the teams with
the captains.  Each confirmed pick (`ConfirmButton.callback`) pops the
selected index from `remaining` and appends the player to the current
captain's team (team 1 iff the picker is `captains[0]`), then
`current_pick_index` advances.  Once `current_pick_index >= len(turn_order)`,
`prompt_next_pick` auto-assigns `remaining[0]`: to team 1 if
`len(team1) < len(team2)`, otherwise to team 2. -/

structure DraftState where
  remaining : List Nat
  team1 : List Nat
  team2 : List Nat
  pickIndex : Nat
deriving Repr, DecidableEq

/-- `turn_order = [captains[0], captains[1], captains[1], captains[0],
captains[0], captains[1], captains[0]]`. -/
def turn_order (c0 c1 : Nat) : List Nat := [c0, c1, c1, c0, c0, c1, c0]

def pick_players_init (players : List Nat) (c0 c1 : Nat) : DraftState :=
  ⟨players.filter (fun p => p ≠ c0 ∧ p ≠ c1), [c0], [c1], 0⟩

/-- One confirmed pick: `pick = remaining.pop(index)`, appended to the
current captain's team. -/
def confirm_pick (c0 c1 : Nat) (s : DraftState) (idx : Nat) : DraftState :=
  if (turn_order c0 c1).getD s.pickIndex 0 = c0 then
    ⟨s.remaining.eraseIdx idx, s.team1 ++ [s.remaining.getD idx 0],
     s.team2, s.pickIndex + 1⟩
  else
    ⟨s.remaining.eraseIdx idx, s.team1,
     s.team2 ++ [s.remaining.getD idx 0], s.pickIndex + 1⟩

def run_picks (c0 c1 : Nat) (s : DraftState) (idxs : List Nat) : DraftState :=
  idxs.foldl (confirm_pick c0 c1) s

/-- A pick sequence is valid when each selected index is in range of the pool
at its turn (the UI dropdown only offers indices of the current pool). -/
def validPicksB (c0 c1 : Nat) (s : DraftState) : List Nat → Bool
  | [] => true
  | i :: rest =>
    decide (i < s.remaining.length) && validPicksB c0 c1 (confirm_pick c0 c1 s i) rest

/-- The automatic final assignment (`prompt_next_pick`, lines 657-663):
`last_player = remaining[0]`; team 1 gets it iff
`len(team1) < len(team2)`, else team 2. -/
def prompt_next_pick_auto (s : DraftState) : DraftState :=
  let last := s.remaining.getD 0 0
  if s.team1.length < s.team2.length then { s with team1 := s.team1 ++ [last] }
  else { s with team2 := s.team2 ++ [last] }

/-- An accepted captain swap (`finalize_captains.CaptainSwapView.swap_captains`,
comm.py lines 574-589).  `oldIdx` is 0 or 1 according to which captain
requested the swap; the replacement is `random.choice(remaining_players)`
(randomness index `k`).  The code then runs
`queue.players.remove(new_captain)`,
`queue.players.append(queue.captains[old_captain_index])` and
`queue.captains[old_captain_index] = new_captain`.  Electing captains
(lines 494-495) never removed them from `queue.players`, so the append
leaves the demoted captain in the roster TWICE.  The
`if not remaining_players` guard aborts without mutation. -/
def captain_swap (q : Queue) (oldIdx k : Nat) : Queue :=
  let remaining_players := q.players.filter (fun p => p ∉ q.captains)
  if remaining_players.isEmpty then q
  else
    let new_captain := remaining_players.getD (k % remaining_players.length) 0
    { q with players := (q.players.erase new_captain) ++ [q.captains.getD oldIdx 0],
             captains := q.captains.set oldIdx new_captain }

/-! ## The `/win` command (comm.py `win_command`, lines 1330-1523)

Modelled after the channel / permission guards (environment checks that abort
untouched).  The body, in source order:
1. `if not queue.match_id:` — reading the attribute raises `AttributeError`
   when it was never defined; otherwise a falsy value (None / 0) yields the
   "No Active Match" reply.
2. `if queue.match_reported:` — `AttributeError` when undefined, otherwise a
   true value yields "Match Already Reported".
3. `if team.lower() not in ["team1", "team2", "1", "2"]:` — "Invalid Team".
4. `success = await db.update_match_winner(...)` — on a falsy result the
   command replies "Database Error" and returns with nothing mutated
   (`dbOk` models store reachability).
5. The winner / loser `db.update_player_points(...)` COROUTINES are appended
   to `winner_points_updates` / `loser_points_updates` but NEVER awaited, so
   the players table receives none of those writes.  The only players-table
   effect is the result embed's `await db.get_player_points(player.id)` per
   participant, whose lazy `create_player` inserts an all-zero row for
   players not yet stored (`create_player0`).
6. `queue.match_reported = True`, then `queue.reset()` with `match_id`,
   `chosen_map` preserved and `match_reported` forced back to True. -/

inductive WinError
  | attributeError
  | noActiveMatch
  | alreadyReported
  | invalidTeam
  | dbError
deriving Repr, DecidableEq

/-- Python truthiness of the `match_id` value: falsy iff `None` or `0`. -/
def optFalsy : Option Nat → Bool
  | none => true
  | some v => decide (v = 0)

structure WinResult where
  result : Except WinError Nat
  queue : Queue
  ms : MatchesTable
  players : PlayersTable
deriving Repr

/-- Python `str.lower()` (ASCII, which covers the team strings). -/
def strLower (s : String) : String := ⟨s.data.map Char.toLower⟩

def team_strings : List String := ["team1", "team2", "1", "2"]

def team_one_strings : List String := ["team1", "1"]

def win_command (q : Queue) (team : String) (ms : MatchesTable)
    (pl : PlayersTable) (dbOk : Bool) : WinResult :=
  match q.match_id with
  | none => ⟨Except.error WinError.attributeError, q, ms, pl⟩
  | some mid =>
    if optFalsy mid then ⟨Except.error WinError.noActiveMatch, q, ms, pl⟩
    else
      match q.match_reported with
      | none => ⟨Except.error WinError.attributeError, q, ms, pl⟩
      | some reported =>
        if reported then ⟨Except.error WinError.alreadyReported, q, ms, pl⟩
        else if strLower team ∈ team_strings then
          let winning_team := if strLower team ∈ team_one_strings then 1 else 2
          if dbOk then
            let ms2 := update_match_winner ms (mid.getD 0) winning_team
            let winners := if winning_team = 1 then q.team1 else q.team2
            let losers := if winning_team = 1 then q.team2 else q.team1
            let pl2 := (winners ++ losers).foldl create_player0 pl
            let qr := q.reset
            let q2 := { qr with match_id := some mid,
                                chosen_map := q.chosen_map,
                                match_reported := some true }
            ⟨Except.ok winning_team, q2, ms2, pl2⟩
          else ⟨Except.error WinError.dbError, q, ms, pl⟩
        else ⟨Except.error WinError.invalidTeam, q, ms, pl⟩

/-- The candidates whose count ties the cut line of a 2-captain vote: the
entries of the ranking whose count equals the count at rank 2 (index 1).
Used to state the tie-break behaviour of `finalize_captains_chosen`. -/
def cutLineTied (votes : List (Nat × Nat)) : List Nat :=
  ((mostCommonList votes).filter
    (fun p => p.2 = ((mostCommonList votes).getD 1 (0, 0)).2)).map Prod.fst

/-! ## Helper lemmas -/

theorem applyOp_length_le (q : Queue) (op : QOp) (h : q.players.length ≤ 10) :
    (applyOp q op).players.length ≤ 10 := by
  cases op with
  | join p =>
    unfold applyOp joinStep
    by_cases hp : p ∈ q.players
    · simpa [hp] using h
    · by_cases hf : q.players.length ≥ 10
      · simpa [hp, hf] using h
      · simp only [hp, hf, if_false, if_true, ite_false, ite_true]
        simp only [List.length_append, List.length_cons, List.length_nil]
        omega
  | leave p =>
    unfold applyOp leaveStep
    calc (q.players.erase p).length ≤ q.players.length := List.length_erase_le _ _
      _ ≤ 10 := h

theorem applyOps_length_le (ops : List QOp) : ∀ (q : Queue),
    q.players.length ≤ 10 → (applyOps q ops).players.length ≤ 10 := by
  induction ops with
  | nil => intro q h; exact h
  | cons op t ih =>
    intro q h
    exact ih (applyOp q op) (applyOp_length_le q op h)

theorem findPlayer_append_single (l : PlayersTable) (j i : Nat) (z : PlayerRow) :
    findPlayer (l ++ [(j, z)]) i =
      match findPlayer l i with
      | some r => some r
      | none => if j = i then some z else none := by
  induction l with
  | nil => simp [findPlayer]
  | cons h t ih =>
    obtain ⟨k, r⟩ := h
    by_cases hk : k = i
    · simp [findPlayer, hk]
    · simpa [findPlayer, hk] using ih

theorem get_player_stats_create_player0 (tbl : PlayersTable) (j i : Nat) :
    get_player_stats (create_player0 tbl j) i = get_player_stats tbl i := by
  unfold create_player0
  cases hf : findPlayer tbl j with
  | some r => rfl
  | none =>
    unfold get_player_stats
    rw [findPlayer_append_single]
    cases hfi : findPlayer tbl i with
    | some r => rfl
    | none =>
      by_cases hj : j = i
      · simp [hj, zeroRow]
      · simp [hj]

theorem get_player_stats_foldl_create (ids : List Nat) : ∀ (tbl : PlayersTable) (i : Nat),
    get_player_stats (ids.foldl create_player0 tbl) i = get_player_stats tbl i := by
  induction ids with
  | nil => intro tbl i; rfl
  | cons j t ih =>
    intro tbl i
    rw [List.foldl_cons, ih, get_player_stats_create_player0]

theorem win_command_players_stats (q : Queue) (team : String) (ms : MatchesTable)
    (pl : PlayersTable) (dbOk : Bool) (i : Nat) :
    get_player_stats (win_command q team ms pl dbOk).players i = get_player_stats pl i := by
  unfold win_command
  cases q.match_id with
  | none => rfl
  | some mid =>
    dsimp only
    split
    · rfl
    · cases q.match_reported with
      | none => rfl
      | some reported =>
        dsimp only
        split
        · rfl
        · split
          · split
            · exact get_player_stats_foldl_create _ _ _
            · rfl
          · rfl

theorem update_player_points_stats (tbl : PlayersTable) (i : Nat) (pta : Int)
    (w : Bool) (u : String) :
    get_player_stats (update_player_points tbl i pta w (some u)) i =
      ⟨(get_player_stats tbl i).points + pta,
       (get_player_stats tbl i).matches_played + 1,
       (get_player_stats tbl i).wins + (if w then 1 else 0),
       some u⟩ := by
  induction tbl with
  | nil => simp [update_player_points, get_player_stats, findPlayer, zeroRow]
  | cons h t ih =>
    obtain ⟨k, r⟩ := h
    by_cases hk : k = i
    · simp [update_player_points, get_player_stats, findPlayer, hk]
    · simpa [update_player_points, get_player_stats, findPlayer, hk] using ih

/-! ## Claim theorems -/

/-- C5: for every queue and every sequence of join/leave roster events, the
roster size stays within [0, 10] (the lower bound is inherent to `Nat`
lengths); and a join attempt by a player not already queued, against a roster
already holding 10 players, is answered with the "Queue Full" capacity error
and leaves the whole queue state — in particular the roster — unchanged.
(A join attempt by a player already in the full roster is instead answered
with the "already in queue" validation error, which the contract of
`addPlayer` checks first; the roster is equally unchanged.) -/
theorem roster_capacity_invariant (n : Nat) (ops : List QOp) (q : Queue) (p : Nat)
    (hfull : q.players.length = 10) (hp : p ∉ q.players) :
    (applyOps (Queue.init n) ops).players.length ≤ 10 ∧
    (joinStep q p).queue = q ∧ (joinStep q p).msg = JoinMsg.queueFull := by
  refine ⟨applyOps_length_le ops (Queue.init n) (by simp [Queue.init]), ?_, ?_⟩
  · simp [joinStep, hp, hfull]
  · simp [joinStep, hp, hfull]

/-- Witness for C5 at a concrete full queue: ten players `1..10`, joiner `11`,
and the event sequence join 1, join 1, leave 7. -/
theorem roster_capacity_invariant_witness :
    (applyOps (Queue.init 1) [QOp.join 1, QOp.join 1, QOp.leave 7]).players.length ≤ 10 ∧
    (joinStep { Queue.init 1 with players := [1, 2, 3, 4, 5, 6, 7, 8, 9, 10] } 11).queue
      = { Queue.init 1 with players := [1, 2, 3, 4, 5, 6, 7, 8, 9, 10] } ∧
    (joinStep { Queue.init 1 with players := [1, 2, 3, 4, 5, 6, 7, 8, 9, 10] } 11).msg
      = JoinMsg.queueFull :=
  roster_capacity_invariant 1 [QOp.join 1, QOp.join 1, QOp.leave 7]
    { Queue.init 1 with players := [1, 2, 3, 4, 5, 6, 7, 8, 9, 10] } 11
    (by decide) (by decide)

/-- C4 (divergence witness): the `is_full` check runs after every `/join`
command, even rejected ones.  Against the already-full roster `[1..10]`, the
join attempt by player 11 is answered "Queue Full" and mutates nothing, yet
the command still evaluates `queue.is_full()` to true and re-invokes
`start_captain_voting` (which clears `captain_votes` and reopens the vote) —
so the Filling→CaptainVote transition is NOT fired exactly once per fill.
The last two conjuncts record the intended trigger: the 10th successful join
does start the vote. -/
theorem join_against_full_queue_retriggers_vote :
    (joinStep { Queue.init 1 with players := [1, 2, 3, 4, 5, 6, 7, 8, 9, 10] } 11).msg
      = JoinMsg.queueFull ∧
    (joinStep { Queue.init 1 with players := [1, 2, 3, 4, 5, 6, 7, 8, 9, 10] } 11).queue
      = { Queue.init 1 with players := [1, 2, 3, 4, 5, 6, 7, 8, 9, 10] } ∧
    (joinStep { Queue.init 1 with players := [1, 2, 3, 4, 5, 6, 7, 8, 9, 10] } 11).startsCaptainVote
      = true ∧
    (joinStep { Queue.init 1 with players := [1, 2, 3, 4, 5, 6, 7, 8, 9] } 10).msg
      = JoinMsg.joined ∧
    (joinStep { Queue.init 1 with players := [1, 2, 3, 4, 5, 6, 7, 8, 9] } 10).startsCaptainVote
      = true := by
  decide

/-- C2 (counterexample): with both teams of equal size (team 1 = `[1]`,
team 2 = `[2]`) and `3` the last player in the pool, the automatic final
assignment puts `3` on team 2 — `len(team1) < len(team2)` is false on a tie,
so the `else` branch appends to team 2.  The claim says an equal-size tie is
broken toward team A; here team A is left unchanged. -/
theorem draft_auto_assign_tie_cex :
    prompt_next_pick_auto ⟨[3], [1], [2], 7⟩ = ⟨[3], [1], [2, 3], 7⟩ ∧
    (prompt_next_pick_auto ⟨[3], [1], [2], 7⟩).team1 = [1] := by
  decide

/-- C10: a freshly constructed `Queue` leaves the `match_id` and
`match_reported` attributes undefined (outer `none`); `reset` is what first
defines them (`None` / `False`).  Running the winner-report command on a
fresh queue therefore raises `AttributeError` at the `queue.match_id` read
rather than returning the "No Active Match" error. -/
theorem fresh_queue_win_raises_attribute_error (n : Nat) (team : String)
    (ms : MatchesTable) (pl : PlayersTable) (dbOk : Bool) :
    (Queue.init n).match_id = none ∧
    (Queue.init n).match_reported = none ∧
    (Queue.init n).reset.match_id = some none ∧
    (Queue.init n).reset.match_reported = some false ∧
    (win_command (Queue.init n) team ms pl dbOk).result
      = Except.error WinError.attributeError ∧
    (win_command (Queue.init n) team ms pl dbOk).result
      ≠ Except.error WinError.noActiveMatch := by
  refine ⟨rfl, rfl, rfl, rfl, rfl, ?_⟩
  intro h
  simp [win_command, Queue.init] at h

/-- C1 (divergence): after a reported win, NO participant's persisted stats
change at all — `win_command` collects the `db.update_player_points`
coroutines into `winner_points_updates` / `loser_points_updates` without ever
awaiting them, so the only players-table traffic is the lazy all-zero
`create_player` insert, which leaves every `get_player_stats` answer intact
(first conjunct).  The remaining conjuncts evaluate `db.update_player_points`
itself — the write the code constructs but never runs: one awaited call for a
winner would add exactly 20 points, 1 match played and 1 win, and one for a
loser 0 points, 1 match played and 0 wins, exactly the deltas the claim
describes. -/
theorem win_report_stats_never_persisted (q : Queue) (team : String)
    (ms : MatchesTable) (pl tbl : PlayersTable) (dbOk : Bool) (i j : Nat) (u : String) :
    get_player_stats (win_command q team ms pl dbOk).players i = get_player_stats pl i ∧
    (get_player_stats (update_player_points tbl j 20 true (some u)) j).points
      = (get_player_stats tbl j).points + 20 ∧
    (get_player_stats (update_player_points tbl j 20 true (some u)) j).matches_played
      = (get_player_stats tbl j).matches_played + 1 ∧
    (get_player_stats (update_player_points tbl j 20 true (some u)) j).wins
      = (get_player_stats tbl j).wins + 1 ∧
    (get_player_stats (update_player_points tbl j 0 false (some u)) j).points
      = (get_player_stats tbl j).points ∧
    (get_player_stats (update_player_points tbl j 0 false (some u)) j).matches_played
      = (get_player_stats tbl j).matches_played + 1 ∧
    (get_player_stats (update_player_points tbl j 0 false (some u)) j).wins
      = (get_player_stats tbl j).wins := by
  refine ⟨win_command_players_stats q team ms pl dbOk i, ?_, ?_, ?_, ?_, ?_, ?_⟩ <;>
    simp [update_player_points_stats]

/-- C7: the winner-report checks fire in source order with no state mutation
on failure.  With the `match_id` attribute holding a falsy value the command
fails with NoActiveMatch (regardless of `match_reported`); with a live match
id but `match_reported = True` it fails with AlreadyReported, leaving queue,
matches and players (point totals) untouched; with an unreported live match
but a team string outside {team1, team2, 1, 2} it fails with InvalidTeam; and
when every check passes and the store write succeeds, the result is a winning
team in {1, 2} and the queue's `match_reported` ends up `True`. -/
theorem win_command_check_order (q : Queue) (team : String) (ms : MatchesTable)
    (pl : PlayersTable) (dbOk : Bool) (mid : Option Nat) :
    (q.match_id = some mid → optFalsy mid = true →
      win_command q team ms pl dbOk = ⟨Except.error WinError.noActiveMatch, q, ms, pl⟩) ∧
    (q.match_id = some mid → optFalsy mid = false → q.match_reported = some true →
      win_command q team ms pl dbOk = ⟨Except.error WinError.alreadyReported, q, ms, pl⟩) ∧
    (q.match_id = some mid → optFalsy mid = false → q.match_reported = some false →
      strLower team ∉ team_strings →
      win_command q team ms pl dbOk = ⟨Except.error WinError.invalidTeam, q, ms, pl⟩) ∧
    (q.match_id = some mid → optFalsy mid = false → q.match_reported = some false →
      strLower team ∈ team_strings → dbOk = true →
      ∃ wt, (wt = 1 ∨ wt = 2) ∧
        (win_command q team ms pl dbOk).result = Except.ok wt ∧
        (win_command q team ms pl dbOk).queue.match_reported = some true) := by
  refine ⟨?_, ?_, ?_, ?_⟩
  · intro h1 h2
    simp [win_command, h1, h2]
  · intro h1 h2 h3
    simp [win_command, h1, h2, h3]
  · intro h1 h2 h3 h4
    simp [win_command, h1, h2, h3, h4]
  · intro h1 h2 h3 h4 h5
    subst h5
    by_cases h6 : strLower team ∈ team_one_strings
    · refine ⟨1, Or.inl rfl, ?_, ?_⟩ <;> simp [win_command, h1, h2, h3, h4, h6]
    · refine ⟨2, Or.inr rfl, ?_, ?_⟩ <;> simp [win_command, h1, h2, h3, h4, h6]

/-- Concrete queue used by the C7 witness: match id 5 reset to `None`. -/
def qJustReset : Queue :=
  { Queue.init 1 with match_id := some none, match_reported := some false }

/-- Concrete queue used by the C7 witness: live match 5, already reported. -/
def qReported : Queue :=
  { Queue.init 1 with match_id := some (some 5), match_reported := some true }

/-- Concrete queue used by the C7 / C8 witnesses: live unreported match 5. -/
def qLive : Queue :=
  { Queue.init 1 with match_id := some (some 5), match_reported := some false,
                      team1 := [1, 3], team2 := [2, 4], chosen_map := some "Plaza" }

/-- Witness for C7: each of the four branches evaluated at a concrete queue. -/
theorem win_command_check_order_witness :
    win_command qJustReset "team1" [] [] true
      = ⟨Except.error WinError.noActiveMatch, qJustReset, [], []⟩ ∧
    win_command qReported "team1" [] [] true
      = ⟨Except.error WinError.alreadyReported, qReported, [], []⟩ ∧
    win_command qLive "teamx" [] [] true
      = ⟨Except.error WinError.invalidTeam, qLive, [], []⟩ ∧
    ∃ wt, (wt = 1 ∨ wt = 2) ∧
      (win_command qLive "team1" [] [] true).result = Except.ok wt ∧
      (win_command qLive "team1" [] [] true).queue.match_reported = some true :=
  ⟨(win_command_check_order qJustReset "team1" [] [] true none).1 rfl rfl,
   (win_command_check_order qReported "team1" [] [] true (some 5)).2.1 rfl (by decide) rfl,
   (win_command_check_order qLive "teamx" [] [] true (some 5)).2.2.1 rfl (by decide) rfl
     (by decide),
   (win_command_check_order qLive "team1" [] [] true (some 5)).2.2.2 rfl (by decide) rfl
     (by decide) rfl⟩

/-- C8: when the persistent-store write for the winner (`update_match_winner`)
fails, the command surfaces the database error and returns with the queue,
the matches table and the players table exactly as they were — in particular
`match_reported` stays `False` and no reset to Filling happens, so retrying
the report is safe. -/
theorem persistence_failure_leaves_state_unchanged (q : Queue) (team : String)
    (ms : MatchesTable) (pl : PlayersTable) (mid : Option Nat)
    (h1 : q.match_id = some mid) (h2 : optFalsy mid = false)
    (h3 : q.match_reported = some false) (h4 : strLower team ∈ team_strings) :
    win_command q team ms pl false = ⟨Except.error WinError.dbError, q, ms, pl⟩ := by
  simp [win_command, h1, h2, h3, h4]

/-- Witness for C8 at the concrete live queue `qLive`. -/
theorem persistence_failure_leaves_state_unchanged_witness :
    win_command qLive "team1" [] [] false
      = ⟨Except.error WinError.dbError, qLive, [], []⟩ :=
  persistence_failure_leaves_state_unchanged qLive "team1" [] [] (some 5)
    rfl (by decide) rfl (by decide)

theorem perm_getD_cons_eraseIdx (l : List Nat) (i : Nat) (h : i < l.length) :
    l.Perm (l.getD i 0 :: l.eraseIdx i) := by
  rw [List.getD_eq_getElem l 0 h]
  conv_lhs => rw [← List.take_append_drop i l, ← List.getElem_cons_drop l i h]
  rw [List.eraseIdx_eq_take_drop_succ]
  exact List.perm_middle

theorem confirm_pick_concat_perm (c0 c1 : Nat) (s : DraftState) (i : Nat)
    (hi : i < s.remaining.length) :
    (s.remaining ++ s.team1 ++ s.team2).Perm
      ((confirm_pick c0 c1 s i).remaining ++ (confirm_pick c0 c1 s i).team1
        ++ (confirm_pick c0 c1 s i).team2) := by
  have hperm := perm_getD_cons_eraseIdx s.remaining i hi
  unfold confirm_pick
  split
  · refine ((hperm.append_right s.team1).append_right s.team2).trans ?_
    refine List.Perm.symm ?_
    show ((s.remaining.eraseIdx i ++ (s.team1 ++ [s.remaining.getD i 0])) ++ s.team2).Perm _
    rw [← List.append_assoc (s.remaining.eraseIdx i) s.team1 [s.remaining.getD i 0],
        List.append_assoc (s.remaining.eraseIdx i ++ s.team1) [s.remaining.getD i 0] s.team2]
    exact List.perm_middle
  · refine ((hperm.append_right s.team1).append_right s.team2).trans ?_
    refine List.Perm.symm ?_
    show ((s.remaining.eraseIdx i ++ s.team1) ++ (s.team2 ++ [s.remaining.getD i 0])).Perm _
    refine (List.Perm.append_left (s.remaining.eraseIdx i ++ s.team1)
      (@List.perm_append_comm _ s.team2 [s.remaining.getD i 0])).trans ?_
    exact List.perm_middle

theorem run_picks_cons (c0 c1 : Nat) (s : DraftState) (i : Nat) (t : List Nat) :
    run_picks c0 c1 s (i :: t) = run_picks c0 c1 (confirm_pick c0 c1 s i) t := rfl

theorem run_picks_nodup (c0 c1 : Nat) : ∀ (idxs : List Nat) (s : DraftState),
    validPicksB c0 c1 s idxs = true →
    (s.remaining ++ s.team1 ++ s.team2).Nodup →
    ((run_picks c0 c1 s idxs).remaining ++ (run_picks c0 c1 s idxs).team1
      ++ (run_picks c0 c1 s idxs).team2).Nodup := by
  intro idxs
  induction idxs with
  | nil => intro s _ h; exact h
  | cons i t ih =>
    intro s hv h
    simp only [validPicksB, Bool.and_eq_true, decide_eq_true_eq] at hv
    rw [run_picks_cons]
    exact ih _ hv.2 (((confirm_pick_concat_perm c0 c1 s i hv.1).nodup_iff).mp h)

theorem run_picks_lengths (c0 c1 : Nat) : ∀ (idxs : List Nat) (s : DraftState),
    validPicksB c0 c1 s idxs = true →
    (run_picks c0 c1 s idxs).remaining.length + idxs.length = s.remaining.length ∧
    (run_picks c0 c1 s idxs).team1.length + (run_picks c0 c1 s idxs).team2.length
      = s.team1.length + s.team2.length + idxs.length := by
  intro idxs
  induction idxs with
  | nil => intro s _; simp [run_picks]
  | cons i t ih =>
    intro s hv
    simp only [validPicksB, Bool.and_eq_true, decide_eq_true_eq] at hv
    have step_rem : (confirm_pick c0 c1 s i).remaining.length + 1 = s.remaining.length := by
      unfold confirm_pick
      split <;> exact List.length_eraseIdx_add_one hv.1
    have step_team : (confirm_pick c0 c1 s i).team1.length
        + (confirm_pick c0 c1 s i).team2.length
        = s.team1.length + s.team2.length + 1 := by
      unfold confirm_pick
      split <;> simp <;> omega
    obtain ⟨ih1, ih2⟩ := ih (confirm_pick c0 c1 s i) hv.2
    rw [run_picks_cons]
    constructor
    · simp only [List.length_cons]
      omega
    · simp only [List.length_cons]
      omega

theorem validPicksB_take (c0 c1 : Nat) : ∀ (idxs : List Nat) (s : DraftState) (k : Nat),
    validPicksB c0 c1 s idxs = true → validPicksB c0 c1 s (idxs.take k) = true := by
  intro idxs
  induction idxs with
  | nil => intro s k _; simp [validPicksB]
  | cons i t ih =>
    intro s k hv
    cases k with
    | zero => simp [validPicksB]
    | succ k2 =>
      simp only [List.take_succ_cons]
      simp only [validPicksB, Bool.and_eq_true, decide_eq_true_eq] at hv ⊢
      exact ⟨hv.1, ih _ k2 hv.2⟩

theorem filter_ne_one_length : ∀ (l : List Nat) (c : Nat), l.Nodup → c ∈ l →
    (l.filter (fun p => decide (p ≠ c))).length + 1 = l.length := by
  intro l
  induction l with
  | nil => intro c _ h0; simp at h0
  | cons a t ih =>
    intro c hnd h0
    obtain ⟨hat, hndt⟩ := List.nodup_cons.mp hnd
    by_cases hac : a = c
    · subst hac
      have hfil : (a :: t).filter (fun p => decide (p ≠ a)) = t := by
        simp only [List.filter_cons]
        rw [if_neg (by simp)]
        refine List.filter_eq_self.mpr ?_
        intro x hx
        simp only [decide_eq_true_eq]
        intro hxa
        exact hat (hxa ▸ hx)
      rw [hfil]
      simp
    · have hct : c ∈ t := by
        rcases List.mem_cons.mp h0 with h | h
        · exact absurd h.symm hac
        · exact h
      simp only [List.filter_cons, decide_eq_true_eq]
      rw [if_pos hac]
      simp only [List.length_cons]
      have := ih c hndt hct
      omega

theorem filter_ne_two_length : ∀ (l : List Nat) (c0 c1 : Nat), l.Nodup →
    c0 ∈ l → c1 ∈ l → c0 ≠ c1 →
    (l.filter (fun p => decide (p ≠ c0 ∧ p ≠ c1))).length + 2 = l.length := by
  intro l
  induction l with
  | nil => intro c0 c1 _ h0; simp at h0
  | cons a t ih =>
    intro c0 c1 hnd h0 h1 hne
    obtain ⟨hat, hndt⟩ := List.nodup_cons.mp hnd
    by_cases hac0 : a = c0
    · subst hac0
      have h1t : c1 ∈ t := by
        rcases List.mem_cons.mp h1 with h | h
        · exact absurd h.symm hne
        · exact h
      have hfc : t.filter (fun p => decide (p ≠ a ∧ p ≠ c1))
          = t.filter (fun p => decide (p ≠ c1)) := by
        refine List.filter_congr ?_
        intro x hx
        have hxa : x ≠ a := fun h => hat (h ▸ hx)
        simp [hxa]
      simp only [List.filter_cons, decide_eq_true_eq]
      rw [if_neg (by simp)]
      rw [hfc]
      have := filter_ne_one_length t c1 hndt h1t
      simp only [List.length_cons]
      omega
    · by_cases hac1 : a = c1
      · subst hac1
        have h0t : c0 ∈ t := by
          rcases List.mem_cons.mp h0 with h | h
          · exact absurd h.symm hac0
          · exact h
        have hfc : t.filter (fun p => decide (p ≠ c0 ∧ p ≠ a))
            = t.filter (fun p => decide (p ≠ c0)) := by
          refine List.filter_congr ?_
          intro x hx
          have hxa : x ≠ a := fun h => hat (h ▸ hx)
          simp [hxa]
        simp only [List.filter_cons, decide_eq_true_eq]
        rw [if_neg (by simp)]
        rw [hfc]
        have := filter_ne_one_length t c0 hndt h0t
        simp only [List.length_cons]
        omega
      · have h0t : c0 ∈ t := by
          rcases List.mem_cons.mp h0 with h | h
          · exact absurd h.symm hac0
          · exact h
        have h1t : c1 ∈ t := by
          rcases List.mem_cons.mp h1 with h | h
          · exact absurd h.symm hac1
          · exact h
        simp only [List.filter_cons, decide_eq_true_eq]
        rw [if_pos ⟨hac0, hac1⟩]
        simp only [List.length_cons]
        have := ih c0 c1 hndt h0t h1t hne
        omega

theorem pick_players_init_nodup (players : List Nat) (c0 c1 : Nat)
    (hnd : players.Nodup) (hne : c0 ≠ c1) :
    ((pick_players_init players c0 c1).remaining
      ++ (pick_players_init players c0 c1).team1
      ++ (pick_players_init players c0 c1).team2).Nodup := by
  have hsub : (players.filter (fun p => decide (p ≠ c0 ∧ p ≠ c1))).Nodup := hnd.filter _
  have hc0 : c0 ∉ players.filter (fun p => decide (p ≠ c0 ∧ p ≠ c1)) := by
    simp [List.mem_filter]
  have hc1 : c1 ∉ players.filter (fun p => decide (p ≠ c0 ∧ p ≠ c1)) := by
    simp [List.mem_filter]
  simp only [pick_players_init]
  simp [List.nodup_append, List.Disjoint, hne]
  simpa using hsub

theorem pick_players_init_remaining_length (players : List Nat) (c0 c1 : Nat)
    (hnd : players.Nodup) (h0 : c0 ∈ players) (h1 : c1 ∈ players) (hne : c0 ≠ c1) :
    (pick_players_init players c0 c1).remaining.length + 2 = players.length :=
  filter_ne_two_length players c0 c1 hnd h0 h1 hne

/-- C6 (counterexample): a reachable drafting state assigns the same
participant to both teams.  Starting from the legitimate post-election queue
(roster `[1..10]`, captains 1 and 2), an accepted swap by captain 1 with
replacement 3 (`captain_swap` at randomness index 0) leaves the roster
`[1, 2, 4, 5, 6, 7, 8, 9, 10, 1]` — the demoted captain 1 now twice — with
captains `[3, 2]`.  Drafting from that roster with the in-range picks
`[0, 7, 0, 0, 0, 0, 0]` lets each captain pick one occurrence of player 1:
team A ends `[3, 1, 5, 6, 8]` and team B `[2, 1, 4, 7]`, so player 1 is on
both teams and the teams are not disjoint, refuting the claim as stated. -/
theorem draft_double_assignment_after_swap_cex :
    (captain_swap { Queue.init 1 with players := [1, 2, 3, 4, 5, 6, 7, 8, 9, 10],
                                      captains := [1, 2] } 0 0).players
      = [1, 2, 4, 5, 6, 7, 8, 9, 10, 1] ∧
    (captain_swap { Queue.init 1 with players := [1, 2, 3, 4, 5, 6, 7, 8, 9, 10],
                                      captains := [1, 2] } 0 0).captains = [3, 2] ∧
    validPicksB 3 2 (pick_players_init [1, 2, 4, 5, 6, 7, 8, 9, 10, 1] 3 2)
      [0, 7, 0, 0, 0, 0, 0] = true ∧
    (run_picks 3 2 (pick_players_init [1, 2, 4, 5, 6, 7, 8, 9, 10, 1] 3 2)
      [0, 7, 0, 0, 0, 0, 0]).team1 = [3, 1, 5, 6, 8] ∧
    (run_picks 3 2 (pick_players_init [1, 2, 4, 5, 6, 7, 8, 9, 10, 1] 3 2)
      [0, 7, 0, 0, 0, 0, 0]).team2 = [2, 1, 4, 7] ∧
    1 ∈ (run_picks 3 2 (pick_players_init [1, 2, 4, 5, 6, 7, 8, 9, 10, 1] 3 2)
      [0, 7, 0, 0, 0, 0, 0]).team1 ∧
    1 ∈ (run_picks 3 2 (pick_players_init [1, 2, 4, 5, 6, 7, 8, 9, 10, 1] 3 2)
      [0, 7, 0, 0, 0, 0, 0]).team2 ∧
    ¬ List.Disjoint
        (run_picks 3 2 (pick_players_init [1, 2, 4, 5, 6, 7, 8, 9, 10, 1] 3 2)
          [0, 7, 0, 0, 0, 0, 0]).team1
        (run_picks 3 2 (pick_players_init [1, 2, 4, 5, 6, 7, 8, 9, 10, 1] 3 2)
          [0, 7, 0, 0, 0, 0, 0]).team2 := by
  have h1 : 1 ∈ (run_picks 3 2 (pick_players_init [1, 2, 4, 5, 6, 7, 8, 9, 10, 1] 3 2)
      [0, 7, 0, 0, 0, 0, 0]).team1 := by decide
  have h2 : 1 ∈ (run_picks 3 2 (pick_players_init [1, 2, 4, 5, 6, 7, 8, 9, 10, 1] 3 2)
      [0, 7, 0, 0, 0, 0, 0]).team2 := by decide
  exact ⟨by decide, by decide, by decide, by decide, by decide, h1, h2,
    fun hd => hd h1 h2⟩

/-- C6 (amended): provided the draft starts from a duplicate-free roster of
10 players with two distinct captains drawn from it — which holds whenever no
captain swap preceded the draft — no participant is ever assigned to both
teams: after every valid pick prefix the two teams are disjoint, and after
the 7 scripted picks plus the automatic final assignment the teams are
disjoint and their sizes sum to 10.  The roster hypotheses are necessary: an
accepted captain swap duplicates the demoted captain in `players`
(see `draft_double_assignment_after_swap_cex`), and from that reachable
state the draft does assign one participant to both teams. -/
theorem draft_teams_disjoint (players : List Nat) (c0 c1 : Nat) (idxs : List Nat)
    (hnd : players.Nodup) (hlen : players.length = 10)
    (h0 : c0 ∈ players) (h1 : c1 ∈ players) (hne : c0 ≠ c1)
    (h7 : idxs.length = 7)
    (hv : validPicksB c0 c1 (pick_players_init players c0 c1) idxs = true) :
    (∀ k, List.Disjoint
        (run_picks c0 c1 (pick_players_init players c0 c1) (idxs.take k)).team1
        (run_picks c0 c1 (pick_players_init players c0 c1) (idxs.take k)).team2) ∧
    List.Disjoint
      (prompt_next_pick_auto (run_picks c0 c1 (pick_players_init players c0 c1) idxs)).team1
      (prompt_next_pick_auto (run_picks c0 c1 (pick_players_init players c0 c1) idxs)).team2 ∧
    (prompt_next_pick_auto (run_picks c0 c1 (pick_players_init players c0 c1) idxs)).team1.length
      + (prompt_next_pick_auto
          (run_picks c0 c1 (pick_players_init players c0 c1) idxs)).team2.length
      = 10 := by
  have hinv0 := pick_players_init_nodup players c0 c1 hnd hne
  have hrlen : (pick_players_init players c0 c1).remaining.length = 8 := by
    have := pick_players_init_remaining_length players c0 c1 hnd h0 h1 hne
    omega
  have hdisj : ∀ (s : DraftState),
      (s.remaining ++ s.team1 ++ s.team2).Nodup →
      List.Disjoint s.team1 s.team2 ∧ List.Disjoint s.remaining s.team1 ∧
        List.Disjoint s.remaining s.team2 := by
    intro s h
    rw [List.nodup_append] at h
    obtain ⟨h12, _, hd⟩ := h
    rw [List.nodup_append] at h12
    rw [List.disjoint_append_left] at hd
    exact ⟨hd.2, h12.2.2, hd.1⟩
  refine ⟨?_, ?_⟩
  · intro k
    have hvk := validPicksB_take c0 c1 idxs (pick_players_init players c0 c1) k hv
    exact (hdisj _ (run_picks_nodup c0 c1 (idxs.take k) _ hvk hinv0)).1
  · have hnodup7 := run_picks_nodup c0 c1 idxs _ hv hinv0
    obtain ⟨hL1, hL2⟩ := run_picks_lengths c0 c1 idxs _ hv
    have hrem7 : (run_picks c0 c1 (pick_players_init players c0 c1) idxs).remaining.length
        = 1 := by omega
    have hteams7 : (run_picks c0 c1 (pick_players_init players c0 c1) idxs).team1.length
        + (run_picks c0 c1 (pick_players_init players c0 c1) idxs).team2.length = 9 := by
      have e1 : (pick_players_init players c0 c1).team1.length = 1 := rfl
      have e2 : (pick_players_init players c0 c1).team2.length = 1 := rfl
      omega
    set s7 := run_picks c0 c1 (pick_players_init players c0 c1) idxs with hs7
    obtain ⟨hd12, hdr1, hdr2⟩ := hdisj s7 hnodup7
    have hmem : s7.remaining.getD 0 0 ∈ s7.remaining := by
      have h01 : 0 < s7.remaining.length := by omega
      rw [List.getD_eq_getElem s7.remaining 0 h01]
      exact List.getElem_mem h01
    have hx1 : s7.remaining.getD 0 0 ∉ s7.team1 := fun hx => hdr1 hmem hx
    have hx2 : s7.remaining.getD 0 0 ∉ s7.team2 := fun hx => hdr2 hmem hx
    unfold prompt_next_pick_auto
    by_cases hlt : s7.team1.length < s7.team2.length
    · rw [if_pos hlt]
      refine ⟨?_, ?_⟩
      · simp only
        rw [List.disjoint_append_left]
        refine ⟨hd12, ?_⟩
        intro a ha
        simp only [List.mem_singleton] at ha
        subst ha
        exact hx2
      · simp only [List.length_append, List.length_cons, List.length_nil]
        omega
    · rw [if_neg hlt]
      refine ⟨?_, ?_⟩
      · simp only
        rw [List.disjoint_append_right]
        refine ⟨hd12, ?_⟩
        intro a ha hb
        simp only [List.mem_singleton] at hb
        subst hb
        exact hx1 ha
      · simp only [List.length_append, List.length_cons, List.length_nil]
        omega

/-- Witness for C6: roster `[1..10]`, captains 1 and 2, every pick taking
pool index 0. -/
theorem draft_teams_disjoint_witness :
    List.Disjoint
      (prompt_next_pick_auto (run_picks 1 2
        (pick_players_init [1, 2, 3, 4, 5, 6, 7, 8, 9, 10] 1 2)
        [0, 0, 0, 0, 0, 0, 0])).team1
      (prompt_next_pick_auto (run_picks 1 2
        (pick_players_init [1, 2, 3, 4, 5, 6, 7, 8, 9, 10] 1 2)
        [0, 0, 0, 0, 0, 0, 0])).team2 ∧
    (prompt_next_pick_auto (run_picks 1 2
        (pick_players_init [1, 2, 3, 4, 5, 6, 7, 8, 9, 10] 1 2)
        [0, 0, 0, 0, 0, 0, 0])).team1.length
      + (prompt_next_pick_auto (run_picks 1 2
          (pick_players_init [1, 2, 3, 4, 5, 6, 7, 8, 9, 10] 1 2)
          [0, 0, 0, 0, 0, 0, 0])).team2.length = 10 :=
  ⟨(draft_teams_disjoint [1, 2, 3, 4, 5, 6, 7, 8, 9, 10] 1 2 [0, 0, 0, 0, 0, 0, 0]
      (by decide) (by decide) (by decide) (by decide) (by decide) (by decide)
      (by decide)).2.1,
   (draft_teams_disjoint [1, 2, 3, 4, 5, 6, 7, 8, 9, 10] 1 2 [0, 0, 0, 0, 0, 0, 0]
      (by decide) (by decide) (by decide) (by decide) (by decide) (by decide)
      (by decide)).2.2⟩

theorem run_picks_seven_team_lengths (players : List Nat) (c0 c1 : Nat)
    (idxs : List Nat) (hne : c0 ≠ c1) (h7 : idxs.length = 7) :
    (run_picks c0 c1 (pick_players_init players c0 c1) idxs).team1.length = 5 ∧
    (run_picks c0 c1 (pick_players_init players c0 c1) idxs).team2.length = 4 := by
  have hne' : c1 ≠ c0 := Ne.symm hne
  rcases idxs with _ | ⟨a, _ | ⟨b, _ | ⟨c, _ | ⟨d, _ | ⟨e, _ | ⟨f, _ | ⟨g, rest⟩⟩⟩⟩⟩⟩⟩ <;>
    simp only [List.length_cons, List.length_nil] at h7 <;> try omega
  have hrest : rest = [] := List.eq_nil_of_length_eq_zero (by omega)
  subst hrest
  simp [run_picks, confirm_pick, turn_order, pick_players_init, hne, hne']

/-- C2 (amended): when the pool is down to one participant after the 7
scripted picks, that participant is auto-assigned to whichever team has
fewer members, but an equal-size tie is broken toward team B — the code
appends to team 2 unless team 1 is strictly smaller (first two conjuncts).
In the scripted flow this tie case never arises: after the 7 picks team A
always has 5 members and team B has 4, so the final participant always joins
team B, producing 5v5 (remaining conjuncts; only the captains being distinct
is needed, whatever indices the 7 picks chose). -/
theorem draft_auto_assign_goes_to_smaller_team (s : DraftState) (players : List Nat)
    (c0 c1 : Nat) (idxs : List Nat) (hne : c0 ≠ c1) (h7 : idxs.length = 7) :
    (s.team1.length < s.team2.length →
      prompt_next_pick_auto s = { s with team1 := s.team1 ++ [s.remaining.getD 0 0] }) ∧
    (s.team2.length ≤ s.team1.length →
      prompt_next_pick_auto s = { s with team2 := s.team2 ++ [s.remaining.getD 0 0] }) ∧
    (run_picks c0 c1 (pick_players_init players c0 c1) idxs).team1.length = 5 ∧
    (run_picks c0 c1 (pick_players_init players c0 c1) idxs).team2.length = 4 ∧
    (prompt_next_pick_auto (run_picks c0 c1 (pick_players_init players c0 c1) idxs)).team1
      = (run_picks c0 c1 (pick_players_init players c0 c1) idxs).team1 ∧
    (prompt_next_pick_auto (run_picks c0 c1 (pick_players_init players c0 c1) idxs)).team2
      = (run_picks c0 c1 (pick_players_init players c0 c1) idxs).team2
        ++ [(run_picks c0 c1 (pick_players_init players c0 c1) idxs).remaining.getD 0 0] ∧
    (prompt_next_pick_auto
      (run_picks c0 c1 (pick_players_init players c0 c1) idxs)).team1.length = 5 ∧
    (prompt_next_pick_auto
      (run_picks c0 c1 (pick_players_init players c0 c1) idxs)).team2.length = 5 := by
  obtain ⟨hl1, hl2⟩ := run_picks_seven_team_lengths players c0 c1 idxs hne h7
  have hnot : ¬ (run_picks c0 c1 (pick_players_init players c0 c1) idxs).team1.length
      < (run_picks c0 c1 (pick_players_init players c0 c1) idxs).team2.length := by
    omega
  refine ⟨?_, ?_, hl1, hl2, ?_, ?_, ?_, ?_⟩
  · intro h
    unfold prompt_next_pick_auto
    rw [if_pos h]
  · intro h
    unfold prompt_next_pick_auto
    rw [if_neg (Nat.not_lt.mpr h)]
  · unfold prompt_next_pick_auto
    rw [if_neg hnot]
  · unfold prompt_next_pick_auto
    rw [if_neg hnot]
  · unfold prompt_next_pick_auto
    rw [if_neg hnot]
    exact hl1
  · unfold prompt_next_pick_auto
    rw [if_neg hnot]
    simp only [List.length_append, List.length_cons, List.length_nil]
    omega

/-- Witness for C2's amended theorem: roster `[1..10]`, captains 1 and 2,
each pick taking pool index 0; the final assignment yields a 5v5 split with
the last player on team B. -/
theorem draft_auto_assign_goes_to_smaller_team_witness :
    (run_picks 1 2 (pick_players_init [1, 2, 3, 4, 5, 6, 7, 8, 9, 10] 1 2)
      [0, 0, 0, 0, 0, 0, 0]).team1.length = 5 ∧
    (run_picks 1 2 (pick_players_init [1, 2, 3, 4, 5, 6, 7, 8, 9, 10] 1 2)
      [0, 0, 0, 0, 0, 0, 0]).team2.length = 4 ∧
    (prompt_next_pick_auto (run_picks 1 2
      (pick_players_init [1, 2, 3, 4, 5, 6, 7, 8, 9, 10] 1 2)
      [0, 0, 0, 0, 0, 0, 0])).team2.length = 5 :=
  ⟨(draft_auto_assign_goes_to_smaller_team ⟨[], [], [], 0⟩
      [1, 2, 3, 4, 5, 6, 7, 8, 9, 10] 1 2 [0, 0, 0, 0, 0, 0, 0]
      (by decide) (by decide)).2.2.1,
   (draft_auto_assign_goes_to_smaller_team ⟨[], [], [], 0⟩
      [1, 2, 3, 4, 5, 6, 7, 8, 9, 10] 1 2 [0, 0, 0, 0, 0, 0, 0]
      (by decide) (by decide)).2.2.2.1,
   (draft_auto_assign_goes_to_smaller_team ⟨[], [], [], 0⟩
      [1, 2, 3, 4, 5, 6, 7, 8, 9, 10] 1 2 [0, 0, 0, 0, 0, 0, 0]
      (by decide) (by decide)).2.2.2.2.2.2.2⟩

theorem mem_insertDesc {α : Type} (p x : α × Nat) (l : List (α × Nat)) :
    x ∈ insertDesc p l ↔ x = p ∨ x ∈ l := by
  induction l with
  | nil => simp [insertDesc]
  | cons q t ih =>
    simp only [insertDesc]
    split
    · simp [List.mem_cons]
    · simp only [List.mem_cons, ih]
      tauto

theorem insertDesc_perm {α : Type} (p : α × Nat) (l : List (α × Nat)) :
    (insertDesc p l).Perm (p :: l) := by
  induction l with
  | nil => exact List.Perm.refl _
  | cons q t ih =>
    simp only [insertDesc]
    split
    · exact List.Perm.refl _
    · exact (ih.cons q).trans (List.Perm.swap p q t)

theorem foldl_insertDesc_perm {α : Type} : ∀ (l acc : List (α × Nat)),
    (l.foldl (fun a p => insertDesc p a) acc).Perm (l ++ acc) := by
  intro l
  induction l with
  | nil => intro acc; simp
  | cons h t ih =>
    intro acc
    refine (ih (insertDesc h acc)).trans ?_
    refine (List.Perm.append_left t (insertDesc_perm h acc)).trans ?_
    exact List.perm_middle

theorem mostCommonList_perm {α : Type} (l : List (α × Nat)) :
    (mostCommonList l).Perm l := by
  simpa using foldl_insertDesc_perm l []

theorem pairwise_insertDesc {α : Type} (p : α × Nat) (l : List (α × Nat))
    (h : l.Pairwise (fun a b => b.2 ≤ a.2)) :
    (insertDesc p l).Pairwise (fun a b => b.2 ≤ a.2) := by
  induction l with
  | nil => simp [insertDesc]
  | cons q t ih =>
    obtain ⟨hq, ht⟩ := List.pairwise_cons.mp h
    simp only [insertDesc]
    split
    · rename_i hlt
      refine List.pairwise_cons.mpr ⟨?_, h⟩
      intro x hx
      rcases List.mem_cons.mp hx with rfl | hxt
      · exact Nat.le_of_lt hlt
      · exact le_trans (hq x hxt) (Nat.le_of_lt hlt)
    · rename_i hge
      refine List.pairwise_cons.mpr ⟨?_, ih ht⟩
      intro x hx
      rcases (mem_insertDesc p x t).mp hx with rfl | hxt
      · exact Nat.le_of_not_lt hge
      · exact hq x hxt

theorem foldl_insertDesc_pairwise {α : Type} : ∀ (l acc : List (α × Nat)),
    acc.Pairwise (fun a b => b.2 ≤ a.2) →
    (l.foldl (fun a p => insertDesc p a) acc).Pairwise (fun a b => b.2 ≤ a.2) := by
  intro l
  induction l with
  | nil => intro acc hacc; simpa using hacc
  | cons x t ih => intro acc hacc; exact ih _ (pairwise_insertDesc x acc hacc)

theorem mostCommonList_pairwise {α : Type} (l : List (α × Nat)) :
    (mostCommonList l).Pairwise (fun a b => b.2 ≤ a.2) :=
  foldl_insertDesc_pairwise l [] (List.Pairwise.nil)

theorem count_le_map_vote_highest (votes : List (String × Nat)) (p : String × Nat)
    (hp : p ∈ votes) : p.2 ≤ map_vote_highest votes := by
  have hmem : p ∈ mostCommonList votes := (mostCommonList_perm votes).mem_iff.mpr hp
  cases hml : mostCommonList votes with
  | nil => rw [hml] at hmem; simp at hmem
  | cons hd tl =>
    rw [hml] at hmem
    have hpw := mostCommonList_pairwise votes
    rw [hml] at hpw
    obtain ⟨hhd, _⟩ := List.pairwise_cons.mp hpw
    unfold map_vote_highest
    rw [hml]
    simp only [List.headD_cons]
    rcases List.mem_cons.mp hmem with rfl | hptl
    · exact le_refl _
    · exact hhd p hptl

theorem map_vote_top_maps_ne_nil (votes : List (String × Nat)) (hne : votes ≠ []) :
    0 < (map_vote_top_maps votes).length := by
  cases hml : mostCommonList votes with
  | nil =>
    have := (mostCommonList_perm votes).length_eq
    rw [hml] at this
    exact absurd (List.eq_nil_of_length_eq_zero this.symm) hne
  | cons hd tl =>
    unfold map_vote_top_maps map_vote_highest
    rw [hml]
    simp only [List.headD_cons, List.length_map]
    have : hd ∈ (hd :: tl).filter (fun p => decide (p.2 = hd.2)) := by
      simp [List.mem_filter]
    calc 0 < 1 := Nat.zero_lt_one
      _ ≤ ((hd :: tl).filter (fun p => decide (p.2 = hd.2))).length :=
        List.length_pos.mpr (List.ne_nil_of_mem this)

theorem finalize_map_vote_choice_mem_top (votes : List (String × Nat)) (k : Nat)
    (hne : votes ≠ []) :
    finalize_map_vote_choice votes k ∈ map_vote_top_maps votes := by
  have hlen := map_vote_top_maps_ne_nil votes hne
  unfold finalize_map_vote_choice
  rw [if_neg (by simpa [List.isEmpty_iff] using hne)]
  have hmod : k % (map_vote_top_maps votes).length < (map_vote_top_maps votes).length :=
    Nat.mod_lt _ hlen
  rw [List.getD_eq_getElem _ _ hmod]
  exact List.getElem_mem hmod

theorem finalize_map_vote_choice_reaches (votes : List (String × Nat)) (m : String)
    (hne : votes ≠ []) (hm : m ∈ map_vote_top_maps votes) :
    ∃ j, finalize_map_vote_choice votes j = m := by
  obtain ⟨j, hj, hjm⟩ := List.getElem_of_mem hm
  refine ⟨j, ?_⟩
  unfold finalize_map_vote_choice
  rw [if_neg (by simpa [List.isEmpty_iff] using hne)]
  rw [Nat.mod_eq_of_lt hj]
  rw [List.getD_eq_getElem _ _ hj]
  exact hjm

/-- C3 (counterexample): captain-vote cut-line ties are NOT broken at random.
With ballots giving candidate 1 two votes and candidates 2 and 3 one vote
each (in that insertion order), candidates 2 and 3 are tied for the second
(cut-line) place, yet `finalize_captains_chosen` — whose ranking branch takes
`most_common(2)` and ignores the randomness arguments entirely — returns
`[1, 2]` for every random draw, and the tied candidate 3 is never selected.
Uniform random choice among the tied set {2, 3} would select 3 with positive
probability, so the claimed behaviour fails on the captain vote. -/
theorem captain_vote_cut_tie_deterministic_cex :
    cutLineTied [(1, 2), (2, 1), (3, 1)] = [2, 3] ∧
    finalize_captains_chosen [1, 2, 3] [(1, 2), (2, 1), (3, 1)] 0 0 = [1, 2] ∧
    finalize_captains_chosen [1, 2, 3] [(1, 2), (2, 1), (3, 1)] 1 1 = [1, 2] ∧
    finalize_captains_chosen [1, 2, 3] [(1, 2), (2, 1), (3, 1)] 2 3 = [1, 2] ∧
    3 ∉ finalize_captains_chosen [1, 2, 3] [(1, 2), (2, 1), (3, 1)] 0 0 := by
  decide

/-- C3 (amended): map-vote resolution draws only from the candidates tied for
the highest count and every such tied candidate is a possible outcome
(first two conjuncts), and the cut count really is the maximum (third
conjunct); captain-vote resolution with at least 2 distinct voted candidates
is fully deterministic — independent of the randomness arguments — and equal
to the first two entries of the count-descending ranking `mostCommonList`,
which is a permutation of the tally sorted by count descending with ties kept
in candidate insertion order (last three conjuncts). -/
theorem vote_resolution_tiebreak (votes : List (String × Nat))
    (cvotes : List (Nat × Nat)) (m : String) (k k1 k2 k3 k4 : Nat) (ps : List Nat)
    (hne : votes ≠ []) (hm : m ∈ map_vote_top_maps votes)
    (hcv : ¬ cvotes.length < 2) :
    finalize_map_vote_choice votes k ∈ map_vote_top_maps votes ∧
    (∃ j, finalize_map_vote_choice votes j = m) ∧
    (∀ p ∈ votes, p.2 ≤ map_vote_highest votes) ∧
    finalize_captains_chosen ps cvotes k1 k2 = finalize_captains_chosen ps cvotes k3 k4 ∧
    finalize_captains_chosen ps cvotes k1 k2
      = ((mostCommonList cvotes).take 2).map Prod.fst ∧
    (mostCommonList cvotes).Perm cvotes ∧
    (mostCommonList cvotes).Pairwise (fun a b => b.2 ≤ a.2) := by
  refine ⟨finalize_map_vote_choice_mem_top votes k hne,
    finalize_map_vote_choice_reaches votes m hne hm,
    fun p hp => count_le_map_vote_highest votes p hp, ?_, ?_,
    mostCommonList_perm cvotes, mostCommonList_pairwise cvotes⟩
  · unfold finalize_captains_chosen
    rw [if_neg hcv, if_neg hcv]
  · unfold finalize_captains_chosen
    rw [if_neg hcv]

/-- Witness for C3's amended theorem: map ballots Plaza 2, Castello 2,
Village 1 (tie at the top between Plaza and Castello, reaching Castello),
captain ballots as in the counterexample. -/
theorem vote_resolution_tiebreak_witness :
    finalize_map_vote_choice [("Plaza", 2), ("Castello", 2), ("Village", 1)] 0
      ∈ map_vote_top_maps [("Plaza", 2), ("Castello", 2), ("Village", 1)] ∧
    (∃ j, finalize_map_vote_choice [("Plaza", 2), ("Castello", 2), ("Village", 1)] j
      = "Castello") ∧
    finalize_captains_chosen [1, 2, 3] [(1, 2), (2, 1), (3, 1)] 0 1
      = ((mostCommonList [(1, 2), (2, 1), (3, 1)]).take 2).map Prod.fst :=
  ⟨(vote_resolution_tiebreak [("Plaza", 2), ("Castello", 2), ("Village", 1)]
      [(1, 2), (2, 1), (3, 1)] "Castello" 0 0 1 2 3 [1, 2, 3]
      (by decide) (by decide) (by decide)).1,
   (vote_resolution_tiebreak [("Plaza", 2), ("Castello", 2), ("Village", 1)]
      [(1, 2), (2, 1), (3, 1)] "Castello" 0 0 1 2 3 [1, 2, 3]
      (by decide) (by decide) (by decide)).2.1,
   (vote_resolution_tiebreak [("Plaza", 2), ("Castello", 2), ("Village", 1)]
      [(1, 2), (2, 1), (3, 1)] "Castello" 0 0 1 2 3 [1, 2, 3]
      (by decide) (by decide) (by decide)).2.2.2.2.1⟩

/-- Concrete `Ready`-bound queue used by the C9 theorem: drafted 5v5 teams,
captains 1 and 2, and an empty map-vote tally. -/
def qZeroVotes : Queue :=
  { Queue.init 1 with players := [1, 2, 3, 4, 5, 6, 7, 8, 9, 10],
                      captains := [1, 2],
                      team1 := [1, 3, 4, 5, 6], team2 := [2, 7, 8, 9, 10] }

/-- C9 (divergence witness): resolving a map vote with zero ballots selects a
map (here `k = 0` draws "Plaza") and creates the match record carrying that
map, but `queue.chosen_map` is assigned only in the has-votes branch — after
a zero-vote resolution the queue's `chosen_map` is still `None` even though
`match_id` is set and the match row holds "Plaza".  The final conjunct shows
the contrast: with a ballot cast, `chosen_map` is stored before the match is
created. -/
theorem zero_vote_map_resolution_skips_chosen_map :
    (finalize_map_vote_step qZeroVotes 0 [] 1 true).1.chosen_map = none ∧
    (finalize_map_vote_step qZeroVotes 0 [] 1 true).2
      = [(1, ⟨1, 1, 2, none, "Plaza"⟩)] ∧
    (finalize_map_vote_step qZeroVotes 0 [] 1 true).1.match_id = some (some 1) ∧
    finalize_map_vote_choice [] 0 = "Plaza" ∧
    (finalize_map_vote_step { qZeroVotes with map_votes := [("Raid", 3)] }
      0 [] 1 true).1.chosen_map = some "Raid" := by
  decide

end TournamentBot
